import Mathlib

/-!
# OSQP matrix facade over the MKL BLAS back end

A shallow embedding of `algebra/mklblas/matrix.c`: the facade that pairs a
compressed-sparse-column (CSC) store with a symmetry tag and a vendor
descriptor, and routes `y = alpha*A*x + beta*y` either to the internal CSC
kernels or to the vendor `cscmv` routine.

Conventions of the embedding.

* The values of `c_float` are rational numbers. The definitions without a
  suffix compute in exact arithmetic. The definitions with the suffix `_fl`
  round every sum and product with the rounding function of the format, their
  first argument; `rnd64` is the rounding of double precision. Infinities and
  NaN are not modelled.
* Sizes, positions and row indices are natural numbers; arrays are lists, a
  read past the end yields `0` and a write past the end is dropped.
* The facade functions of `matrix.c` are translated statement by statement.
  The CSC kernels (`csc_math.c`), the vector helpers and the vendor routines
  are not part of the translated file; each of them is a separate definition
  whose doc comment says where its behaviour is taken from.
* Functions that call out return, next to their result, the list of calls
  they made, in order.
-/

namespace OSQP

/-! ## Data model -/

/-- Modelled from the spec: the values of the floating-point element type
(`c_float`), taken as rational numbers; the rounding of the arithmetic is
applied by the `_fl` definitions. -/
abbrev c_float := ℚ

/-- Modelled from the spec: the CSC store of section 3 (type `csc`, declared in
a header that is not among the sources): capacity `nzmax`, `m` rows, `n`
columns, column pointers `p` (length `n+1`), row indices `i` and values `x`. -/
structure csc where
  nzmax : Nat
  m : Nat
  n : Nat
  p : List Nat
  i : List Nat
  x : List c_float
  deriving DecidableEq, Repr

/-- Modelled from the spec: the symmetry tag of section 3
(`NONE`, or `TRIU` for "upper triangular"). -/
inductive OSQPMatrix_symmetry_type where
  | NONE
  | TRIU
  deriving DecidableEq, Repr

open OSQPMatrix_symmetry_type

/-- The four descriptor characters `matdescra[0..3]` that `matrix.c` writes. -/
structure MatDescr where
  d0 : Char
  d1 : Char
  d2 : Char
  d3 : Char
  deriving DecidableEq, Repr

/-- Modelled from the spec: the matrix facade of section 3 (type `OSQPMatrix`):
a CSC store, a symmetry tag and a backend descriptor. -/
structure OSQPMatrix where
  csc : csc
  symmetry : OSQPMatrix_symmetry_type
  matdescra : MatDescr
  deriving DecidableEq, Repr

/-- Modelled from the spec: a dense float vector; its `length` field is the
length of the list. -/
abbrev OSQPVectorf := List c_float

/-- Modelled from the spec: a dense integer vector. -/
abbrev OSQPVectori := List Int

/-- The external routines a facade function can call. -/
inductive Call where
  | cscmv (transa : Char) (matdescra : MatDescr)
  | csc_Axpy
  | csc_Atxpy
  | csc_Axpy_sym_triu
  | OSQPVectorf_malloc (length : Nat)
  | OSQPVectorf_dot_prod
  | csc_submatrix_byrows
  | c_malloc
  | csc_spfree
  deriving DecidableEq, Repr

/-- The constant `#define AxpyNNZfilter 20`. -/
def AxpyNNZfilter : Nat := 20

/-! ## Array helpers -/

/-- The statement `y[r] += v`. -/
def vec_add_at (y : List c_float) (r : Nat) (v : c_float) : List c_float :=
  y.set r (y.getD r 0 + v)

/-- The statement `y[r] *= v`. -/
def vec_mul_at (y : List c_float) (r : Nat) (v : c_float) : List c_float :=
  y.set r (y.getD r 0 * v)

/-- The positions `p[j] .. p[j+1]-1` of the entries of column `j`. -/
def csc.col (A : csc) (j : Nat) : List Nat :=
  List.range' (A.p.getD j 0) (A.p.getD (j + 1) 0 - A.p.getD j 0)

/-- The store holds upper-triangular entries only: row index `<=` column. -/
def csc.is_triu (A : csc) : Prop :=
  ∀ j, j < A.n → ∀ k, k ∈ A.col j → A.i.getD k 0 ≤ j

instance (A : csc) : Decidable A.is_triu := by
  unfold csc.is_triu
  infer_instance

/-! ## CSC kernels (csc_math.c) -/

/-- Modelled from the spec: the first step of `axpy`, `y <- beta*y`; when
`beta == 0` the old contents of `y` are not read. -/
def vec_scale_beta (beta : c_float) (y : List c_float) : List c_float :=
  if beta = 0 then y.map (fun _ => 0) else y.map (fun v => beta * v)

/-- Modelled from the spec: the kernel `csc_Axpy` of section 4.1,
`y <- alpha*A*x + beta*y` for a general `m x n` store, accumulated column by
column over the stored entries. -/
def csc_Axpy (A : csc) (x y : List c_float) (alpha beta : c_float) : List c_float :=
  (List.range A.n).foldl
    (fun acc j => (A.col j).foldl
      (fun acc k => vec_add_at acc (A.i.getD k 0) (alpha * (A.x.getD k 0 * x.getD j 0)))
      acc)
    (vec_scale_beta beta y)

/-- Modelled from the spec: the kernel `csc_Atxpy` of section 4.1,
`y <- alpha*A'*x + beta*y`. -/
def csc_Atxpy (A : csc) (x y : List c_float) (alpha beta : c_float) : List c_float :=
  (List.range A.n).foldl
    (fun acc j => (A.col j).foldl
      (fun acc k => vec_add_at acc j (alpha * (A.x.getD k 0 * x.getD (A.i.getD k 0) 0)))
      acc)
    (vec_scale_beta beta y)

/-- Modelled from the spec: the kernel `csc_Axpy_sym_triu` of section 4.2. Each
stored entry `(i,j,v)` contributes `v` at `(i,j)` and, when `i != j`, also at
`(j,i)`; both contributions are accumulated in one pass. -/
def csc_Axpy_sym_triu (A : csc) (x y : List c_float) (alpha beta : c_float) :
    List c_float :=
  (List.range A.n).foldl
    (fun acc j => (A.col j).foldl
      (fun acc k =>
        let acc1 := vec_add_at acc (A.i.getD k 0) (alpha * (A.x.getD k 0 * x.getD j 0))
        if A.i.getD k 0 ≠ j then
          vec_add_at acc1 j (alpha * (A.x.getD k 0 * x.getD (A.i.getD k 0) 0))
        else acc1)
      acc)
    (vec_scale_beta beta y)

/-- Modelled from the spec: `csc_lmult_diag` of section 4.1, every stored entry
is scaled by the factor of its row. -/
def csc_lmult_diag (A : csc) (d : List c_float) : csc :=
  { A with
    x := ((List.range A.n).foldl
      (fun acc j => (A.col j).foldl
        (fun acc k => vec_mul_at acc k (d.getD (A.i.getD k 0) 0)) acc) A.x) }

/-- Modelled from the spec: `csc_rmult_diag` of section 4.1, every stored entry
is scaled by the factor of its column. -/
def csc_rmult_diag (A : csc) (d : List c_float) : csc :=
  { A with
    x := ((List.range A.n).foldl
      (fun acc j => (A.col j).foldl
        (fun acc k => vec_mul_at acc k (d.getD j 0)) acc) A.x) }

/-- Modelled from the spec: `csc_update_values` of section 6 overwrites the
stored values at the given positions and leaves the structure alone. -/
def csc_update_values (M : csc) (Mx_new : List c_float) (Mx_new_idx : List Nat)
    (M_new_n : Nat) : csc :=
  { M with
    x := ((List.range M_new_n).foldl
      (fun acc t => acc.set (Mx_new_idx.getD t 0) (Mx_new.getD t 0)) M.x) }

/-- The accessor `OSQPVectorf_data`. -/
def OSQPVectorf_data (v : OSQPVectorf) : List c_float := v

/-- The accessor `OSQPVectori_data`. -/
def OSQPVectori_data (v : OSQPVectori) : List Int := v

/-- Modelled from the spec: a successful `OSQPVectorf_malloc` returns a vector
of the requested length whose contents are whatever the heap holds. -/
def OSQPVectorf_malloc (length : Nat) (heap : Nat → c_float) : OSQPVectorf :=
  (List.range length).map heap

/-- Modelled from the spec: `OSQPVectorf_dot_prod`, the inner product. -/
def OSQPVectorf_dot_prod (a b : OSQPVectorf) : c_float :=
  (List.zipWith (fun u v => u * v) a b).sum

/-! ## Vendor routines -/

/-- Modelled from the spec: the value at `(r,c)` of the CSC matrix given by the
raw arrays handed to the vendor routine. Column `c` occupies the positions
`pntrb[c] .. pntre[c]-1`; `base` is the index base (0 or 1) of the positions and
of the row indices. -/
def mkl_coeff (base : Nat) (val : List c_float) (indx pntrb pntre : List Nat) (r c : Nat) :
    c_float :=
  ((List.range' (pntrb.getD c 0 - base) (pntre.getD c 0 - pntrb.getD c 0)).map
    (fun k => if indx.getD k 0 = r + base then val.getD k 0 else 0)).sum

/-- Modelled from the spec: the matrix the vendor routine works with, as selected
by the backend descriptor of section 3 (general or symmetric, triangle
orientation, unit diagonal, index base). With `matdescra[0] = 's'` the matrix is
`U' + D + U` (for `matdescra[1] = 'u'`) or `L + D + L'` (otherwise), where `U`,
`L` and `D` are the strict upper triangle, the strict lower triangle and the
diagonal of the stored matrix, and `D` is replaced by the identity when
`matdescra[2] = 'u'`; otherwise the stored matrix is taken as it is.
`matdescra[3] = 'f'` selects one-based indices. -/
def mkl_effective (matdescra : MatDescr) (val : List c_float) (indx pntrb pntre : List Nat)
    (r c : Nat) : c_float :=
  let base := if matdescra.d3 = 'f' then 1 else 0
  if matdescra.d0 = 's' then
    if r = c then
      (if matdescra.d2 = 'u' then 1 else mkl_coeff base val indx pntrb pntre r c)
    else if matdescra.d1 = 'u' then
      (if r < c then mkl_coeff base val indx pntrb pntre r c
       else mkl_coeff base val indx pntrb pntre c r)
    else
      (if c < r then mkl_coeff base val indx pntrb pntre r c
       else mkl_coeff base val indx pntrb pntre c r)
  else mkl_coeff base val indx pntrb pntre r c

/-- Modelled from the spec: the vendor sparse-BLAS call `cscmv` (`mkl_dcscmv` /
`mkl_scscmv`) of section 4.3. For the `m x k` matrix `A` described by the arrays
and the descriptor, `y := alpha*A*x + beta*y` when `transa` is `'n'` and
`y := alpha*A'*x + beta*y` otherwise. -/
def cscmv (transa : Char) (m k : Nat) (alpha : c_float) (matdescra : MatDescr)
    (val : List c_float) (indx pntrb pntre : List Nat) (x : List c_float)
    (beta : c_float) (y : List c_float) : List c_float :=
  if transa = 'n' ∨ transa = 'N' then
    (List.range m).map (fun r =>
      alpha * ((List.range k).map (fun c =>
        mkl_effective matdescra val indx pntrb pntre r c * x.getD c 0)).sum
      + beta * y.getD r 0) ++ y.drop m
  else
    (List.range k).map (fun c =>
      alpha * ((List.range m).map (fun r =>
        mkl_effective matdescra val indx pntrb pntre r c * x.getD r 0)).sum
      + beta * y.getD c 0) ++ y.drop k

/-- Modelled from the spec: the vendor routine `scal` (`cblas_dscal` /
`cblas_sscal`) behind `multiply_scalar`: the `n` elements of `x` at the
positions `0, incx, 2*incx, ...` are multiplied by `a`. -/
def scal (n : Nat) (a : c_float) (x : List c_float) (incx : Nat) : List c_float :=
  if incx = 0 then x
  else x.mapIdx (fun t v => if t % incx = 0 ∧ t / incx < n then a * v else v)

/-! ## The facade (matrix.c) -/

/-- The function `OSQPMatrix_new_from_csc`. The outcome of `c_malloc` (nothing, or a block
with arbitrary contents) and the copying routine `csc_copy` are parameters. -/
def OSQPMatrix_new_from_csc (c_malloc : Option OSQPMatrix) (csc_copy : csc → Option csc)
    (A : csc) (is_triu : Int) : Option OSQPMatrix :=
  match c_malloc with
  | none => none
  | some out =>
    let out : OSQPMatrix :=
      if is_triu ≠ 0 then
        { out with symmetry := TRIU, matdescra := { out.matdescra with d0 := 's' } }
      else
        { out with symmetry := NONE, matdescra := { out.matdescra with d0 := 'g' } }
    match csc_copy A with
    | none => none
    | some copy =>
      some { out with
        csc := copy
        matdescra := { out.matdescra with d1 := 'u', d2 := 'n', d3 := 'c' } }

/-- The function `OSQPMatrix_update_values`. -/
def OSQPMatrix_update_values (M : OSQPMatrix) (Mx_new : List c_float)
    (Mx_new_idx : List Nat) (M_new_n : Nat) : OSQPMatrix :=
  { M with csc := csc_update_values M.csc Mx_new Mx_new_idx M_new_n }

/-- The function `OSQPMatrix_get_m`. -/
def OSQPMatrix_get_m (M : OSQPMatrix) : Nat := M.csc.m

/-- The function `OSQPMatrix_get_n`. -/
def OSQPMatrix_get_n (M : OSQPMatrix) : Nat := M.csc.n

/-- The function `OSQPMatrix_get_nz`: `M->csc->p[M->csc->n]`. -/
def OSQPMatrix_get_nz (M : OSQPMatrix) : Nat := M.csc.p.getD M.csc.n 0

/-- The function `OSQPMatrix_mult_scalar`. -/
def OSQPMatrix_mult_scalar (A : OSQPMatrix) (sc : c_float) : OSQPMatrix :=
  let length := A.csc.nzmax
  { A with csc := { A.csc with x := scal length sc A.csc.x 1 } }

/-- The function `OSQPMatrix_lmult_diag`. -/
def OSQPMatrix_lmult_diag (A : OSQPMatrix) (L : OSQPVectorf) : OSQPMatrix :=
  { A with csc := csc_lmult_diag A.csc (OSQPVectorf_data L) }

/-- The function `OSQPMatrix_rmult_diag`. -/
def OSQPMatrix_rmult_diag (A : OSQPMatrix) (R : OSQPVectorf) : OSQPMatrix :=
  { A with csc := csc_rmult_diag A.csc (OSQPVectorf_data R) }

/-- The function `OSQPMatrix_Axpy`: the new contents of `y` and the calls made. -/
def OSQPMatrix_Axpy (A : OSQPMatrix) (x y : OSQPVectorf) (alpha beta : c_float) :
    OSQPVectorf × List Call :=
  let transa := 'n'
  let xf := OSQPVectorf_data x
  let yf := OSQPVectorf_data y
  let Acsc := A.csc
  let m := Acsc.m
  let k := Acsc.n
  let val := Acsc.x
  let indx := Acsc.i
  let pntrb := Acsc.p
  let pntre := Acsc.p.drop 1
  let nnz := Acsc.nzmax
  if nnz > AxpyNNZfilter then
    if A.symmetry = NONE then
      (cscmv transa m k alpha A.matdescra val indx pntrb pntre xf beta yf,
        [Call.cscmv transa A.matdescra])
    else
      (cscmv transa m k alpha A.matdescra val indx pntrb pntre xf beta yf,
        [Call.cscmv transa A.matdescra])
  else
    if A.symmetry = NONE then
      (csc_Axpy A.csc xf yf alpha beta, [Call.csc_Axpy])
    else
      (csc_Axpy_sym_triu A.csc xf yf alpha beta, [Call.csc_Axpy_sym_triu])

/-- The function `OSQPMatrix_Atxpy`: the new contents of `y` and the calls made. -/
def OSQPMatrix_Atxpy (A : OSQPMatrix) (x y : OSQPVectorf) (alpha beta : c_float) :
    OSQPVectorf × List Call :=
  let transa := 't'
  let xf := OSQPVectorf_data x
  let yf := OSQPVectorf_data y
  let Acsc := A.csc
  let m := Acsc.m
  let k := Acsc.n
  let val := Acsc.x
  let indx := Acsc.i
  let pntrb := Acsc.p
  let pntre := Acsc.p.drop 1
  if Acsc.nzmax > AxpyNNZfilter then
    if A.symmetry = NONE then
      (cscmv transa m k alpha A.matdescra val indx pntrb pntre xf beta yf,
        [Call.cscmv transa A.matdescra])
    else
      (cscmv transa m k alpha A.matdescra val indx pntrb pntre xf beta yf,
        [Call.cscmv transa A.matdescra])
  else
    if A.symmetry = NONE then
      (csc_Atxpy A.csc (OSQPVectorf_data x) (OSQPVectorf_data y) alpha beta, [Call.csc_Atxpy])
    else
      (csc_Axpy_sym_triu A.csc (OSQPVectorf_data x) (OSQPVectorf_data y) alpha beta,
        [Call.csc_Axpy_sym_triu])

/-- The function `OSQPMatrix_quad_form` in exact arithmetic, for a successful
allocation of the temporary: the returned value and the calls made. `heap` is
what the freshly allocated temporary happens to contain. The version with
rounding and with the outcome of the allocation is `OSQPMatrix_quad_form_fl`. -/
def OSQPMatrix_quad_form (heap : Nat → c_float) (P : OSQPMatrix) (x : OSQPVectorf) :
    c_float × List Call :=
  if P.symmetry = TRIU then
    let y := OSQPVectorf_malloc x.length heap
    let r := OSQPMatrix_Axpy P x y 1 0
    (0.5 * OSQPVectorf_dot_prod r.1 x,
      Call.OSQPVectorf_malloc x.length :: r.2 ++ [Call.OSQPVectorf_dot_prod])
  else
    (-1.0, [])

/-- The outcome of `OSQPMatrix_submatrix_byrows`: the argument as it is after
the call, the returned pointer (`none` for `OSQP_NULL`) and the calls made. -/
structure SubmatrixResult where
  A_after : OSQPMatrix
  out : Option OSQPMatrix
  calls : List Call
  deriving DecidableEq, Repr

/-- The function `OSQPMatrix_submatrix_byrows`. The row-extraction kernel and the outcome of
`c_malloc` are parameters. -/
def OSQPMatrix_submatrix_byrows (csc_submatrix_byrows : csc → List Int → Option csc)
    (c_malloc : Option OSQPMatrix) (A : OSQPMatrix) (rows : OSQPVectori) :
    SubmatrixResult :=
  if A.symmetry = TRIU then
    { A_after := A, out := none, calls := [] }
  else
    match csc_submatrix_byrows A.csc (OSQPVectori_data rows) with
    | none => { A_after := A, out := none, calls := [Call.csc_submatrix_byrows] }
    | some M =>
      match c_malloc with
      | none =>
        { A_after := A, out := none
          calls := [Call.csc_submatrix_byrows, Call.c_malloc, Call.csc_spfree] }
      | some out =>
        { A_after := A
          out := some { out with
            symmetry := NONE
            csc := M
            matdescra := { d0 := 'g', d1 := 'u', d2 := 'n', d3 := 'c' } }
          calls := [Call.csc_submatrix_byrows, Call.c_malloc] }

/-! ## Reference semantics -/

/-- The descriptor that belongs to a symmetry tag: `'s'` for `TRIU`, `'g'` for
`NONE`, followed by `'u'`, `'n'`, `'c'`. -/
def matdescra_of (s : OSQPMatrix_symmetry_type) : MatDescr :=
  { d0 := if s = TRIU then 's' else 'g', d1 := 'u', d2 := 'n', d3 := 'c' }

/-- The invariants of a facade in the data model: the descriptor is the one of
the tag, and a `TRIU` facade is square and stores upper-triangular entries
only. -/
def OSQPMatrix.wf (A : OSQPMatrix) : Prop :=
  A.matdescra = matdescra_of A.symmetry ∧
    (A.symmetry = TRIU → A.csc.m = A.csc.n ∧ A.csc.is_triu)

/-- The concrete scenario of the specification: the 3 x 3 upper-triangular store
with diagonal `[2,3,4]` and the entry `1` at `(0,1)`. -/
def P3 : csc :=
  { nzmax := 4, m := 3, n := 3, p := [0, 1, 3, 4], i := [0, 0, 1, 2], x := [2, 1, 3, 4] }

/-- The operations that modify a facade in place. -/
inductive FacadeOp where
  | update_values (Mx_new : List c_float) (Mx_new_idx : List Nat) (M_new_n : Nat)
  | mult_scalar (sc : c_float)
  | lmult_diag (L : OSQPVectorf)
  | rmult_diag (R : OSQPVectorf)

/-- The effect of one in-place operation. -/
def FacadeOp.run : FacadeOp → OSQPMatrix → OSQPMatrix
  | FacadeOp.update_values Mx_new Mx_new_idx M_new_n, M =>
    OSQPMatrix_update_values M Mx_new Mx_new_idx M_new_n
  | FacadeOp.mult_scalar sc, M => OSQPMatrix_mult_scalar M sc
  | FacadeOp.lmult_diag L, M => OSQPMatrix_lmult_diag M L
  | FacadeOp.rmult_diag R, M => OSQPMatrix_rmult_diag M R

/-- The effect of a sequence of in-place operations, first to last. -/
def run_ops (ops : List FacadeOp) (M : OSQPMatrix) : OSQPMatrix :=
  ops.foldl (fun M o => o.run M) M

/-- A 2 x 2 upper-triangular store with the single entry `1` at `(0,1)`. -/
def U2 : csc :=
  { nzmax := 1, m := 2, n := 2, p := [0, 0, 1], i := [0], x := [1] }

/-! ## Floating-point arithmetic

The values of `c_float` are rational numbers. In floating-point arithmetic every
sum and product is the exact result rounded to the format; the rounding
function `rnd` of the format (single or double precision, a build-time choice)
is a parameter of the `_fl` versions of the kernels and of the facade. Results
that overflow to infinity and NaN are outside this model. -/

/-- The number is an integer. -/
def is_int (q : c_float) : Prop := ((⌊q⌋ : ℤ) : ℚ) = q

instance (q : c_float) : Decidable (is_int q) := by
  unfold is_int
  infer_instance

/-- The store with every value replaced by its absolute value. -/
def csc.abs (A : csc) : csc := { A with x := A.x.map (fun v => |v|) }

/-- The facade over the store of absolute values. -/
def OSQPMatrix.abs (A : OSQPMatrix) : OSQPMatrix := { A with csc := A.csc.abs }

theorem length_OSQPVectorf_malloc (n : Nat) (heap : Nat → c_float) :
    (OSQPVectorf_malloc n heap).length = n := by
  simp [OSQPVectorf_malloc]

theorem wf_triu (S : csc) (hmn : S.m = S.n) (hup : S.is_triu) :
    OSQPMatrix.wf { csc := S, symmetry := TRIU, matdescra := matdescra_of TRIU } :=
  ⟨rfl, fun _ => ⟨hmn, hup⟩⟩

theorem mkl_effective_symm (d : MatDescr) (hd : d.d0 = 's') (val : List c_float)
    (indx pntrb pntre : List Nat) (r c : Nat) :
    mkl_effective d val indx pntrb pntre r c = mkl_effective d val indx pntrb pntre c r := by
  unfold mkl_effective
  dsimp only
  rw [if_pos hd, if_pos hd]
  rcases Nat.lt_trichotomy r c with hlt | heq | hgt
  · have h1 : ¬ r = c := Nat.ne_of_lt hlt
    have h2 : ¬ c = r := fun e => h1 e.symm
    have h3 : ¬ c < r := Nat.lt_asymm hlt
    simp only [h1, h2, h3, hlt, if_true, if_false]
  · subst heq; rfl
  · have h1 : ¬ r = c := Nat.ne_of_gt hgt
    have h2 : ¬ c = r := fun e => h1 e.symm
    have h3 : ¬ r < c := Nat.lt_asymm hgt
    simp only [h1, h2, h3, hgt, if_true, if_false]

theorem cscmv_symmetric_n_eq_t (n : Nat) (alpha : c_float) (d : MatDescr) (hd : d.d0 = 's')
    (val : List c_float) (indx pntrb pntre : List Nat) (x : List c_float) (beta : c_float)
    (y : List c_float) :
    cscmv 'n' n n alpha d val indx pntrb pntre x beta y =
      cscmv 't' n n alpha d val indx pntrb pntre x beta y := by
  unfold cscmv
  rw [if_pos (Or.inl rfl), if_neg (by decide)]
  congr 1
  apply List.map_congr_left
  intro r _
  congr 3
  apply List.map_congr_left
  intro c _
  rw [mkl_effective_symm d hd]

theorem is_int_iff (q : c_float) : is_int q ↔ ∃ z : ℤ, q = z := by
  unfold is_int
  constructor
  · intro h
    exact ⟨⌊q⌋, h.symm⟩
  · rintro ⟨z, rfl⟩
    simp

theorem is_int_intCast (z : ℤ) : is_int (z : ℚ) := (is_int_iff _).mpr ⟨z, rfl⟩

theorem getD_replicate_zero (m t : Nat) : (List.replicate m (0 : c_float)).getD t 0 = 0 := by
  by_cases h : t < m
  · rw [List.getD_eq_getElem _ _ (by simpa using h)]
    simp
  · rw [List.getD_eq_default _ _ (by simpa using Nat.le_of_not_lt h)]

theorem abs_wf (A : OSQPMatrix) (h : A.wf) : A.abs.wf := h

/-- Claim C6. On symmetric storage `apply` and `apply_transposed` coincide. For
every `TRIU` facade (descriptor of the tag, square store) and all `x`, `y`,
`alpha`, `beta`, `OSQPMatrix_Axpy` and `OSQPMatrix_Atxpy` leave the same vector
in `y`; on the internal path both are the one call
`csc_Axpy_sym_triu(A->csc, x, y, alpha, beta)`. -/
theorem C6_axpy_atxpy_coincide :
    ∀ (A : OSQPMatrix) (x y : OSQPVectorf) (alpha beta : c_float),
      A.symmetry = TRIU → A.matdescra = matdescra_of A.symmetry → A.csc.m = A.csc.n →
      (OSQPMatrix_Axpy A x y alpha beta).1 = (OSQPMatrix_Atxpy A x y alpha beta).1 ∧
      (A.csc.nzmax ≤ AxpyNNZfilter →
        OSQPMatrix_Axpy A x y alpha beta =
          (csc_Axpy_sym_triu A.csc x y alpha beta, [Call.csc_Axpy_sym_triu]) ∧
        OSQPMatrix_Atxpy A x y alpha beta =
          (csc_Axpy_sym_triu A.csc x y alpha beta, [Call.csc_Axpy_sym_triu])) := by
  intro A x y alpha beta hs hd hmn
  have hne : ¬ A.symmetry = NONE := by rw [hs]; exact fun h => by cases h
  have hd0 : A.matdescra.d0 = 's' := by rw [hd, hs]; rfl
  constructor
  · unfold OSQPMatrix_Axpy OSQPMatrix_Atxpy OSQPVectorf_data
    dsimp only
    rw [if_neg hne, if_neg hne, if_neg hne, if_neg hne]
    split
    · dsimp only
      rw [hmn]
      exact cscmv_symmetric_n_eq_t _ _ _ hd0 _ _ _ _ _ _ _
    · rfl
  · intro hle
    have hle' : ¬ A.csc.nzmax > AxpyNNZfilter := Nat.not_lt.mpr hle
    unfold OSQPMatrix_Axpy OSQPMatrix_Atxpy OSQPVectorf_data
    dsimp only
    rw [if_neg hle', if_neg hne, if_neg hle', if_neg hne]
    exact ⟨rfl, rfl⟩

/-- Witness for claim C6: the store of the concrete scenario with capacity 21, so
that both calls go to the vendor routine. -/
theorem C6_axpy_atxpy_coincide_witness :
    (OSQPMatrix_Axpy
        { csc := { P3 with nzmax := 21 }, symmetry := TRIU, matdescra := matdescra_of TRIU }
        [1, 2, 3] [4, 5, 6] 2 3).1 =
      (OSQPMatrix_Atxpy
        { csc := { P3 with nzmax := 21 }, symmetry := TRIU, matdescra := matdescra_of TRIU }
        [1, 2, 3] [4, 5, 6] 2 3).1 :=
  (C6_axpy_atxpy_coincide
    { csc := { P3 with nzmax := 21 }, symmetry := TRIU, matdescra := matdescra_of TRIU }
    [1, 2, 3] [4, 5, 6] 2 3 rfl rfl rfl).1


/-- Claim C4. Symmetry precondition of `quadratic_form`. For a facade whose tag is
not `TRIU` the function returns the sentinel `-1.0`, a negative value, and
makes no call at all (no allocation, no multiplication); for a facade with tag
`TRIU` it takes the computing branch: allocation, `OSQPMatrix_Axpy`, dot
product. -/
theorem C4_quad_form_precondition :
    ∀ (heap : Nat → c_float) (P : OSQPMatrix) (x : OSQPVectorf),
      (P.symmetry ≠ TRIU →
        OSQPMatrix_quad_form heap P x = (-1.0, []) ∧ (OSQPMatrix_quad_form heap P x).1 < 0) ∧
      (P.symmetry = TRIU →
        OSQPMatrix_quad_form heap P x =
          (0.5 * OSQPVectorf_dot_prod
              (OSQPMatrix_Axpy P x (OSQPVectorf_malloc x.length heap) 1 0).1 x,
            Call.OSQPVectorf_malloc x.length ::
              (OSQPMatrix_Axpy P x (OSQPVectorf_malloc x.length heap) 1 0).2 ++
              [Call.OSQPVectorf_dot_prod])) := by
  intro heap P x
  constructor
  · intro hs
    unfold OSQPMatrix_quad_form
    rw [if_neg hs]
    refine ⟨rfl, ?_⟩
    norm_num
  · intro hs
    unfold OSQPMatrix_quad_form
    rw [if_pos hs]

/-- Witness for claim C4: the store of the concrete scenario under the tag
`NONE`. -/
theorem C4_quad_form_precondition_witness :
    OSQPMatrix_quad_form (fun _ => 7)
        { csc := P3, symmetry := NONE, matdescra := matdescra_of NONE } [1, 1, 1] = (-1.0, []) ∧
      (OSQPMatrix_quad_form (fun _ => 7)
        { csc := P3, symmetry := NONE, matdescra := matdescra_of NONE } [1, 1, 1]).1 < 0 :=
  (C4_quad_form_precondition (fun _ => 7)
    { csc := P3, symmetry := NONE, matdescra := matdescra_of NONE } [1, 1, 1]).1
    (fun h => by cases h)

/-- Claim C5. `extract_rows`. On a `TRIU` facade `OSQPMatrix_submatrix_byrows`
returns null without calling the row-extraction kernel. On a `NONE` facade it
returns null exactly when the kernel or the allocation of the facade fails;
otherwise it returns a facade whose store is the kernel's result, whose tag is
`NONE` and whose descriptor is `('g','u','n','c')`. The argument is left as it
was. -/
theorem C5_submatrix_byrows :
    ∀ (kernel : csc → List Int → Option csc) (c_malloc : Option OSQPMatrix)
      (A : OSQPMatrix) (rows : OSQPVectori),
      (A.symmetry = TRIU →
        (OSQPMatrix_submatrix_byrows kernel c_malloc A rows).out = none ∧
        (OSQPMatrix_submatrix_byrows kernel c_malloc A rows).calls = []) ∧
      (A.symmetry = NONE →
        ((OSQPMatrix_submatrix_byrows kernel c_malloc A rows).out = none ↔
          (kernel A.csc rows = none ∨ c_malloc = none)) ∧
        (∀ M blk, kernel A.csc rows = some M → c_malloc = some blk →
          (OSQPMatrix_submatrix_byrows kernel c_malloc A rows).out =
            some { csc := M, symmetry := NONE,
                   matdescra := { d0 := 'g', d1 := 'u', d2 := 'n', d3 := 'c' } })) ∧
      (OSQPMatrix_submatrix_byrows kernel c_malloc A rows).A_after = A := by
  intro kernel c_malloc A rows
  refine ⟨?_, ?_, ?_⟩
  · intro hs
    unfold OSQPMatrix_submatrix_byrows
    rw [if_pos hs]
    exact ⟨rfl, rfl⟩
  · intro hs
    have hne : ¬ A.symmetry = TRIU := by rw [hs]; exact fun h => by cases h
    unfold OSQPMatrix_submatrix_byrows OSQPVectori_data
    rw [if_neg hne]
    constructor
    · cases hk : kernel A.csc rows with
      | none => simp
      | some M =>
        cases hm : c_malloc with
        | none => simp
        | some blk => simp
    · intro M blk hk hm
      rw [hk, hm]
  · unfold OSQPMatrix_submatrix_byrows
    split
    · rfl
    · split
      · rfl
      · split <;> rfl

/-- Witness for claim C5: a kernel that hands back the store and a successful
allocation, on the store of the concrete scenario under the tag `NONE`. -/
theorem C5_submatrix_byrows_witness :
    (OSQPMatrix_submatrix_byrows (fun c _ => some c)
        (some { csc := U2, symmetry := TRIU, matdescra := matdescra_of TRIU })
        { csc := P3, symmetry := NONE, matdescra := matdescra_of NONE } [1, 0, 1]).out =
      some { csc := P3, symmetry := NONE,
             matdescra := { d0 := 'g', d1 := 'u', d2 := 'n', d3 := 'c' } } :=
  ((C5_submatrix_byrows (fun c _ => some c)
    (some { csc := U2, symmetry := TRIU, matdescra := matdescra_of TRIU })
    { csc := P3, symmetry := NONE, matdescra := matdescra_of NONE } [1, 0, 1]).2.1 rfl).2
    P3 { csc := U2, symmetry := TRIU, matdescra := matdescra_of TRIU } rfl rfl

/-- Counterexample to claim C8 as stated: on the `TRIU` facade over the 2 x 2 store
with the single entry `1` at `(0,1)` and the diagonal `d = [2,3]`,
`OSQPMatrix_lmult_diag` leaves the value `2` (row factor) and
`OSQPMatrix_rmult_diag` leaves the value `3` (column factor). -/
theorem C8_diag_mult_counterexample :
    OSQPMatrix.wf { csc := U2, symmetry := TRIU, matdescra := matdescra_of TRIU } ∧
    (OSQPMatrix_lmult_diag { csc := U2, symmetry := TRIU, matdescra := matdescra_of TRIU }
      [2, 3]).csc.x = [2] ∧
    (OSQPMatrix_rmult_diag { csc := U2, symmetry := TRIU, matdescra := matdescra_of TRIU }
      [2, 3]).csc.x = [3] ∧
    (OSQPMatrix_rmult_diag { csc := U2, symmetry := TRIU, matdescra := matdescra_of TRIU }
      [2, 3]).csc.x ≠
    (OSQPMatrix_lmult_diag { csc := U2, symmetry := TRIU, matdescra := matdescra_of TRIU }
      [2, 3]).csc.x := by
  have hl : (OSQPMatrix_lmult_diag
      { csc := U2, symmetry := TRIU, matdescra := matdescra_of TRIU } [2, 3]).csc.x = [2] := by
    simp [OSQPMatrix_lmult_diag, csc_lmult_diag, OSQPVectorf_data, U2, csc.col, vec_mul_at,
      List.range_succ, List.range']
  have hr : (OSQPMatrix_rmult_diag
      { csc := U2, symmetry := TRIU, matdescra := matdescra_of TRIU } [2, 3]).csc.x = [3] := by
    simp [OSQPMatrix_rmult_diag, csc_rmult_diag, OSQPVectorf_data, U2, csc.col, vec_mul_at,
      List.range_succ, List.range']
  refine ⟨wf_triu U2 rfl (by decide), hl, hr, ?_⟩
  rw [hl, hr]
  decide

/-- Claim C8, amended. Whatever the symmetry tag, `OSQPMatrix_lmult_diag` is the
kernel `csc_lmult_diag` (each stored entry times the factor of its row) and
`OSQPMatrix_rmult_diag` is the kernel `csc_rmult_diag` (each stored entry times
the factor of its column), applied to the store; the two leave the same facade
whenever `d` has the same value at the row and at the column of every stored
entry, in particular when every stored entry is diagonal. -/
theorem C8_diag_mult_amended :
    ∀ (A : OSQPMatrix) (d : OSQPVectorf),
      OSQPMatrix_lmult_diag A d = { A with csc := csc_lmult_diag A.csc d } ∧
      OSQPMatrix_rmult_diag A d = { A with csc := csc_rmult_diag A.csc d } ∧
      ((∀ j, j < A.csc.n → ∀ k, k ∈ A.csc.col j → d.getD (A.csc.i.getD k 0) 0 = d.getD j 0) →
        OSQPMatrix_rmult_diag A d = OSQPMatrix_lmult_diag A d) ∧
      ((∀ j, j < A.csc.n → ∀ k, k ∈ A.csc.col j → A.csc.i.getD k 0 = j) →
        OSQPMatrix_rmult_diag A d = OSQPMatrix_lmult_diag A d) := by
  intro A d
  have key : (∀ j, j < A.csc.n → ∀ k, k ∈ A.csc.col j →
      d.getD (A.csc.i.getD k 0) 0 = d.getD j 0) →
      OSQPMatrix_rmult_diag A d = OSQPMatrix_lmult_diag A d := by
    intro h
    unfold OSQPMatrix_rmult_diag OSQPMatrix_lmult_diag csc_rmult_diag csc_lmult_diag
      OSQPVectorf_data
    congr 2
    apply List.foldl_ext
    intro acc j hj
    apply List.foldl_ext
    intro acc2 k hk
    rw [h j (List.mem_range.mp hj) k hk]
  refine ⟨rfl, rfl, key, ?_⟩
  intro hdiag
  apply key
  intro j hj k hk
  rw [hdiag j hj k hk]

/-- Witness for claim C8, amended: the store of the concrete scenario scaled by
the constant diagonal `[5,5,5]`. -/
theorem C8_diag_mult_amended_witness :
    OSQPMatrix_rmult_diag { csc := P3, symmetry := TRIU, matdescra := matdescra_of TRIU }
        [5, 5, 5] =
      OSQPMatrix_lmult_diag { csc := P3, symmetry := TRIU, matdescra := matdescra_of TRIU }
        [5, 5, 5] :=
  (C8_diag_mult_amended { csc := P3, symmetry := TRIU, matdescra := matdescra_of TRIU }
    [5, 5, 5]).2.2.1 (by decide)

/-- Counterexample to claim C9 as stated: the store of the concrete scenario with
capacity 21 holds 4 entries (`OSQPMatrix_get_nz` returns 4, not more than 20),
and both `OSQPMatrix_Axpy` and `OSQPMatrix_Atxpy` call the vendor routine. -/
theorem C9_dispatch_counterexample :
    OSQPMatrix_get_nz
        { csc := { P3 with nzmax := 21 }, symmetry := NONE, matdescra := matdescra_of NONE } = 4 ∧
    ¬ OSQPMatrix_get_nz
        { csc := { P3 with nzmax := 21 }, symmetry := NONE, matdescra := matdescra_of NONE } >
      AxpyNNZfilter ∧
    (OSQPMatrix_Axpy
        { csc := { P3 with nzmax := 21 }, symmetry := NONE, matdescra := matdescra_of NONE }
        [1, 1, 1] [0, 0, 0] 1 0).2 = [Call.cscmv 'n' (matdescra_of NONE)] ∧
    (OSQPMatrix_Atxpy
        { csc := { P3 with nzmax := 21 }, symmetry := NONE, matdescra := matdescra_of NONE }
        [1, 1, 1] [0, 0, 0] 1 0).2 = [Call.cscmv 't' (matdescra_of NONE)] := by
  refine ⟨rfl, by decide, ?_, ?_⟩
  · simp [OSQPMatrix_Axpy, P3, AxpyNNZfilter]
  · simp [OSQPMatrix_Atxpy, P3, AxpyNNZfilter]

/-- Claim C9, amended. `OSQPMatrix_Axpy` and `OSQPMatrix_Atxpy` make exactly one
call; it is the vendor `cscmv` call exactly when the capacity field `nzmax` of
the store exceeds the threshold 20, and otherwise the internal kernel chosen by
the symmetry tag alone (`NONE`: `csc_Axpy` / `csc_Atxpy`, otherwise
`csc_Axpy_sym_triu`). When the capacity equals the number of stored entries
`OSQPMatrix_get_nz`, this is the rule on the non-zero count. -/
theorem C9_dispatch_amended :
    ∀ (A : OSQPMatrix) (x y : OSQPVectorf) (alpha beta : c_float),
      ((OSQPMatrix_Axpy A x y alpha beta).2 = [Call.cscmv 'n' A.matdescra] ↔
        A.csc.nzmax > 20) ∧
      ((OSQPMatrix_Atxpy A x y alpha beta).2 = [Call.cscmv 't' A.matdescra] ↔
        A.csc.nzmax > 20) ∧
      (A.csc.nzmax ≤ 20 →
        (OSQPMatrix_Axpy A x y alpha beta).2 =
          [if A.symmetry = NONE then Call.csc_Axpy else Call.csc_Axpy_sym_triu] ∧
        (OSQPMatrix_Atxpy A x y alpha beta).2 =
          [if A.symmetry = NONE then Call.csc_Atxpy else Call.csc_Axpy_sym_triu]) ∧
      (A.csc.nzmax = OSQPMatrix_get_nz A →
        ((OSQPMatrix_Axpy A x y alpha beta).2 = [Call.cscmv 'n' A.matdescra] ↔
          OSQPMatrix_get_nz A > 20) ∧
        ((OSQPMatrix_Atxpy A x y alpha beta).2 = [Call.cscmv 't' A.matdescra] ↔
          OSQPMatrix_get_nz A > 20)) := by
  intro A x y alpha beta
  have hA : (OSQPMatrix_Axpy A x y alpha beta).2 = [Call.cscmv 'n' A.matdescra] ↔
      A.csc.nzmax > 20 := by
    unfold OSQPMatrix_Axpy AxpyNNZfilter
    dsimp only
    by_cases h : A.csc.nzmax > 20
    · rw [if_pos h]
      split <;> simp [h]
    · rw [if_neg h]
      split <;> simp [h]
  have hT : (OSQPMatrix_Atxpy A x y alpha beta).2 = [Call.cscmv 't' A.matdescra] ↔
      A.csc.nzmax > 20 := by
    unfold OSQPMatrix_Atxpy AxpyNNZfilter
    dsimp only
    by_cases h : A.csc.nzmax > 20
    · rw [if_pos h]
      split <;> simp [h]
    · rw [if_neg h]
      split <;> simp [h]
  refine ⟨hA, hT, ?_, ?_⟩
  · intro hle
    have h : ¬ A.csc.nzmax > 20 := Nat.not_lt.mpr hle
    unfold OSQPMatrix_Axpy OSQPMatrix_Atxpy AxpyNNZfilter
    dsimp only
    rw [if_neg h, if_neg h]
    constructor <;> split <;> rfl
  · intro heq
    rw [← heq]
    exact ⟨hA, hT⟩

/-- Witness for claim C9, amended: the store of the concrete scenario, whose
capacity 4 is at most 20, under the tag `TRIU`. -/
theorem C9_dispatch_amended_witness :
    (OSQPMatrix_Axpy { csc := P3, symmetry := TRIU, matdescra := matdescra_of TRIU }
        [1, 1, 1] [0, 0, 0] 1 0).2 = [Call.csc_Axpy_sym_triu] ∧
    (OSQPMatrix_Atxpy { csc := P3, symmetry := TRIU, matdescra := matdescra_of TRIU }
        [1, 1, 1] [0, 0, 0] 1 0).2 = [Call.csc_Axpy_sym_triu] :=
  (C9_dispatch_amended { csc := P3, symmetry := TRIU, matdescra := matdescra_of TRIU }
    [1, 1, 1] [0, 0, 0] 1 0).2.2.1 (by decide)

theorem run_ops_tag (ops : List FacadeOp) :
    ∀ M : OSQPMatrix, (run_ops ops M).symmetry = M.symmetry ∧
      (run_ops ops M).matdescra = M.matdescra := by
  induction ops with
  | nil => intro M; exact ⟨rfl, rfl⟩
  | cons o ops ih =>
    intro M
    have h := ih (o.run M)
    have ho : (o.run M).symmetry = M.symmetry ∧ (o.run M).matdescra = M.matdescra := by
      cases o <;> exact ⟨rfl, rfl⟩
    unfold run_ops at h ⊢
    rw [List.foldl_cons]
    exact ⟨h.1.trans ho.1, h.2.trans ho.2⟩

theorem OSQPMatrix_new_from_csc_tag (c_malloc : Option OSQPMatrix)
    (csc_copy : csc → Option csc) (A : csc) (is_triu : Int) (M : OSQPMatrix)
    (h : OSQPMatrix_new_from_csc c_malloc csc_copy A is_triu = some M) :
    (M.symmetry = TRIU ↔ is_triu ≠ 0) ∧ M.matdescra = matdescra_of M.symmetry := by
  unfold OSQPMatrix_new_from_csc at h
  cases hm : c_malloc with
  | none => rw [hm] at h; cases h
  | some blk =>
    rw [hm] at h
    dsimp only at h
    cases hc : csc_copy A with
    | none => rw [hc] at h; cases h
    | some copy =>
      rw [hc] at h
      dsimp only at h
      by_cases ht : is_triu ≠ 0
      · rw [if_pos ht] at h
        cases h
        exact ⟨⟨fun _ => ht, fun _ => rfl⟩, rfl⟩
      · rw [if_neg ht] at h
        cases h
        exact ⟨⟨fun e => (by cases e), fun e => absurd e ht⟩, rfl⟩

theorem OSQPMatrix_submatrix_byrows_tag (kernel : csc → List Int → Option csc)
    (c_malloc : Option OSQPMatrix) (A : OSQPMatrix) (rows : OSQPVectori) (M : OSQPMatrix)
    (h : (OSQPMatrix_submatrix_byrows kernel c_malloc A rows).out = some M) :
    M.symmetry = NONE ∧ M.matdescra = matdescra_of M.symmetry := by
  unfold OSQPMatrix_submatrix_byrows at h
  split at h
  · cases h
  · split at h
    · cases h
    · split at h
      · cases h
      · dsimp only at h
        cases h
        exact ⟨rfl, rfl⟩

theorem matdescra_of_spec (s : OSQPMatrix_symmetry_type) :
    ((matdescra_of s).d0 = 's' ↔ s = TRIU) ∧ ((matdescra_of s).d0 = 'g' ↔ s = NONE) ∧
      (matdescra_of s).d1 = 'u' ∧ (matdescra_of s).d2 = 'n' ∧ (matdescra_of s).d3 = 'c' := by
  cases s <;> decide

/-- Claim C10. Descriptor/tag consistency. `OSQPMatrix_new_from_csc` sets the tag to
`TRIU` iff `is_triu` is non-zero. In every facade obtained from
`OSQPMatrix_new_from_csc` or `OSQPMatrix_submatrix_byrows` by any sequence of
`OSQPMatrix_update_values`, `OSQPMatrix_mult_scalar`, `OSQPMatrix_lmult_diag`
and `OSQPMatrix_rmult_diag`, the tag and the descriptor are those set at
construction, `descriptor[0]` is `'s'` iff the tag is `TRIU` and `'g'` iff the
tag is `NONE`, and `descriptor[1..3]` is `('u','n','c')`. -/
theorem C10_descriptor_tag_invariant :
    (∀ (c_malloc : Option OSQPMatrix) (csc_copy : csc → Option csc) (A : csc) (is_triu : Int)
        (M0 : OSQPMatrix) (ops : List FacadeOp),
      OSQPMatrix_new_from_csc c_malloc csc_copy A is_triu = some M0 →
      (M0.symmetry = TRIU ↔ is_triu ≠ 0) ∧
      (run_ops ops M0).symmetry = M0.symmetry ∧
      (run_ops ops M0).matdescra = M0.matdescra ∧
      (run_ops ops M0).matdescra = matdescra_of (run_ops ops M0).symmetry ∧
      ((run_ops ops M0).matdescra.d0 = 's' ↔ (run_ops ops M0).symmetry = TRIU) ∧
      ((run_ops ops M0).matdescra.d0 = 'g' ↔ (run_ops ops M0).symmetry = NONE) ∧
      (run_ops ops M0).matdescra.d1 = 'u' ∧ (run_ops ops M0).matdescra.d2 = 'n' ∧
      (run_ops ops M0).matdescra.d3 = 'c') ∧
    (∀ (kernel : csc → List Int → Option csc) (c_malloc : Option OSQPMatrix) (A : OSQPMatrix)
        (rows : OSQPVectori) (M0 : OSQPMatrix) (ops : List FacadeOp),
      (OSQPMatrix_submatrix_byrows kernel c_malloc A rows).out = some M0 →
      M0.symmetry = NONE ∧
      (run_ops ops M0).symmetry = M0.symmetry ∧
      (run_ops ops M0).matdescra = M0.matdescra ∧
      (run_ops ops M0).matdescra = matdescra_of (run_ops ops M0).symmetry ∧
      ((run_ops ops M0).matdescra.d0 = 's' ↔ (run_ops ops M0).symmetry = TRIU) ∧
      ((run_ops ops M0).matdescra.d0 = 'g' ↔ (run_ops ops M0).symmetry = NONE) ∧
      (run_ops ops M0).matdescra.d1 = 'u' ∧ (run_ops ops M0).matdescra.d2 = 'n' ∧
      (run_ops ops M0).matdescra.d3 = 'c') := by
  have fin : ∀ (M0 : OSQPMatrix) (ops : List FacadeOp),
      M0.matdescra = matdescra_of M0.symmetry →
      (run_ops ops M0).symmetry = M0.symmetry ∧
      (run_ops ops M0).matdescra = M0.matdescra ∧
      (run_ops ops M0).matdescra = matdescra_of (run_ops ops M0).symmetry ∧
      ((run_ops ops M0).matdescra.d0 = 's' ↔ (run_ops ops M0).symmetry = TRIU) ∧
      ((run_ops ops M0).matdescra.d0 = 'g' ↔ (run_ops ops M0).symmetry = NONE) ∧
      (run_ops ops M0).matdescra.d1 = 'u' ∧ (run_ops ops M0).matdescra.d2 = 'n' ∧
      (run_ops ops M0).matdescra.d3 = 'c' := by
    intro M0 ops h0
    obtain ⟨h1, h2⟩ := run_ops_tag ops M0
    have h3 : (run_ops ops M0).matdescra = matdescra_of (run_ops ops M0).symmetry := by
      rw [h1, h2, h0]
    refine ⟨h1, h2, h3, ?_⟩
    rw [h3]
    exact matdescra_of_spec _
  constructor
  · intro c_malloc csc_copy A is_triu M0 ops h
    obtain ⟨h1, h2⟩ := OSQPMatrix_new_from_csc_tag c_malloc csc_copy A is_triu M0 h
    exact ⟨h1, fin M0 ops h2⟩
  · intro kernel c_malloc A rows M0 ops h
    obtain ⟨h1, h2⟩ := OSQPMatrix_submatrix_byrows_tag kernel c_malloc A rows M0 h
    exact ⟨h1, fin M0 ops h2⟩

/-- Witness for claim C10: a facade built from the store of the concrete scenario
with `is_triu = 1`, in a block that held something else, then scaled three
times and updated. -/
theorem C10_descriptor_tag_invariant_witness :
    (run_ops [FacadeOp.mult_scalar 2, FacadeOp.lmult_diag [1, 2, 3],
        FacadeOp.rmult_diag [1, 2, 3], FacadeOp.update_values [9] [0] 1]
      { csc := P3, symmetry := TRIU, matdescra := matdescra_of TRIU }).matdescra =
      { d0 := 's', d1 := 'u', d2 := 'n', d3 := 'c' } :=
  ((C10_descriptor_tag_invariant.1
    (some { csc := U2, symmetry := NONE, matdescra := { d0 := 'x', d1 := 'x', d2 := 'x', d3 := 'x' } })
    (fun c => some c) P3 1
    { csc := P3, symmetry := TRIU, matdescra := matdescra_of TRIU }
    [FacadeOp.mult_scalar 2, FacadeOp.lmult_diag [1, 2, 3],
      FacadeOp.rmult_diag [1, 2, 3], FacadeOp.update_values [9] [0] 1]
    rfl).2.2.1)

end OSQP
